import Mathlib

/-!
Verification development for the Sigil nominal-identity library
(`src/core/options.ts`, `src/core/symbols.ts`, `src/core/classes.ts`,
`src/core/mixin.ts`).

Modelling conventions, each traceable to the TypeScript source:

* Runtime symbols are produced only by `Symbol.for(label)`, which is a
  stable bijection between label strings and symbols, so a symbol is
  modelled by its label string (`symbolFor` is the identity injection).
* A class constructor is modelled by `Ctor`: its declared `name`, its own
  (non-inherited) marker properties `__SIGIL__`, `__SIGIL_BASE__`,
  `__DECORATED__`, `__INHERITANCE_CHECKED__`, and its own identity
  metadata bundle (`__LABEL__`, `__TYPE__`, `__TYPE_LINEAGE__`,
  `__TYPE_SET__`), which `decorateCtor` always defines together.
* A prototype chain of constructors is a `List Ctor`, the class itself
  first, `Object.getPrototypeOf` moving to the tail.  Property reads that
  walk the prototype chain (`ctor[__TYPE_LINEAGE__]`, `ctor[__SIGIL__]`)
  become list searches; `Object.hasOwn` reads become head-field reads.
* A JS `Set` built by `new Set(array)` keeps the first occurrence of each
  element in insertion order; `mkSet` reproduces that, and only
  membership in the set is ever consulted by the code.
* The process-wide mutable `OPTIONS` object (which owns the active
  registry) is threaded explicitly; functions that can `throw` return the
  error message together with the state as it stands at the throw site,
  mirroring the imperative execution step by step.
-/

/-- Models `Symbol.for`: a stable bijection from label strings to runtime
symbols, so symbols are represented by their label strings. -/
def symbolFor (label : String) : String := label

/-- The identity-metadata bundle that `decorateCtor` binds onto a class:
`__LABEL__`, `__TYPE__`, `__TYPE_LINEAGE__`, `__TYPE_SET__`. -/
structure SigilMeta where
  label : String
  symbol : String
  lineage : List String
  lineageSet : List String
deriving Repr, DecidableEq

/-- A class constructor: declared name, own marker properties and own
identity metadata (all non-enumerable own properties in the source). -/
structure Ctor where
  name : String
  ownSigil : Bool
  ownSigilBase : Bool
  ownDecorated : Bool
  ownChecked : Bool
  ownMeta : Option SigilMeta
deriving Repr, DecidableEq

/-- A JavaScript value as far as the identity checks observe it: `null`,
`undefined`, a non-object primitive, or an object whose resolved
constructor (`getConstructor`) is either a prototype chain or `null`. -/
inductive JSValue where
  | nullV : JSValue
  | undef : JSValue
  | prim : JSValue
  | objVal : Option (List Ctor) → JSValue
deriving Repr, DecidableEq

/-- Prototype-walking read of the metadata bundle: first constructor in
the chain carrying own metadata (models `ctor[__TYPE_LINEAGE__]` etc.,
which are defined together by `decorateCtor`). -/
def lookupMeta : List Ctor → Option SigilMeta
  | [] => none
  | c :: rest =>
    match c.ownMeta with
    | some m => some m
    | none => lookupMeta rest

/-- Models `isSigilCtor`: `value[__SIGIL__] === true`, a prototype-walking
read of the `__SIGIL__` marker (the only value ever written is `true`). -/
def isSigilCtorB : List Ctor → Bool
  | [] => false
  | c :: rest => c.ownSigil || isSigilCtorB rest

/-- Models `isSigilInstance`: `false` for non-objects; otherwise resolve
the constructor with `getConstructor` and test it with `isSigilCtor`. -/
def isSigilInstanceB : JSValue → Bool
  | JSValue.objVal (some chain) => isSigilCtorB chain
  | _ => false

/-- One step of `new Set(array)` construction: add an element unless
already present (JS sets keep the first occurrence). -/
def addUnique (acc : List String) (a : String) : List String :=
  if a ∈ acc then acc else acc ++ [a]

/-- Models `new Set(ctorChain)`: the lineage array with duplicates
removed, keeping first occurrences. -/
def mkSet (l : List String) : List String := l.foldl addUnique []

/-- Models `thisLineage.every((s, i) => s === otherLineage[i])`: an
out-of-range index yields `undefined`, which never equals a symbol. -/
def lineageStarts : List String → List String → Bool
  | [], _ => true
  | _ :: _, [] => false
  | a :: as, b :: bs => (a == b) && lineageStarts as bs

/-- Models the static `isOfType` of the `Sigilified` mixin, called on an
identified class whose metadata bundle is `m` (`this.SigilType` reads
`m.symbol`): guard with `isSigilInstance`, resolve the other value's
constructor, read its `__TYPE_SET__` up the prototype chain and test
membership of this class's symbol. -/
def isOfType (m : SigilMeta) (v : JSValue) : Bool :=
  if isSigilInstanceB v then
    match v with
    | JSValue.objVal (some chain) =>
      match lookupMeta chain with
      | none => false
      | some om => if m.symbol ∈ om.lineageSet then true else false
    | _ => false
  else false

/-- Models the static `isOfTypeStrict` of the `Sigilified` mixin, called
on an identified class with metadata `m`: same guards, then compare this
class's lineage positionally against the other constructor's lineage. -/
def isOfTypeStrict (m : SigilMeta) (v : JSValue) : Bool :=
  if isSigilInstanceB v then
    match v with
    | JSValue.objVal (some chain) =>
      match lookupMeta chain with
      | none => false
      | some om => lineageStarts m.lineage om.lineage
    | _ => false
  else false

/-- Helper for reasoning about substring occurrence in error messages:
`listStarts p s` holds when `p` is an initial segment of `s`. -/
def listStarts : List Char → List Char → Bool
  | [], _ => true
  | _ :: _, [] => false
  | a :: as, b :: bs => (a == b) && listStarts as bs

/-- `listHasSub p s`: `p` occurs as a contiguous segment of `s`. -/
def listHasSub (p : List Char) : List Char → Bool
  | [] => listStarts p []
  | b :: rest => listStarts p (b :: rest) || listHasSub p rest

/-- Substring occurrence on strings (used to state whether an error
message mentions a class name). -/
def strContainsSub (needle hay : String) : Bool :=
  listHasSub needle.toList hay.toList

/-- The apostrophe character used by the source's error messages. -/
def sqc : String := String.mk [Char.ofNat 39]

section BasicLemmas

theorem mem_foldl_addUnique (l : List String) :
    ∀ acc s, s ∈ l.foldl addUnique acc ↔ s ∈ acc ∨ s ∈ l := by
  induction l with
  | nil => intro acc s; simp [List.foldl]
  | cons a as ih =>
    intro acc s
    simp only [List.foldl, List.mem_cons]
    rw [ih]
    unfold addUnique
    by_cases h : a ∈ acc
    · simp only [if_pos h]
      constructor
      · rintro (h1 | h1)
        · exact Or.inl h1
        · exact Or.inr (Or.inr h1)
      · rintro (h1 | h1 | h1)
        · exact Or.inl h1
        · exact Or.inl (h1 ▸ h)
        · exact Or.inr h1
    · simp only [if_neg h, List.mem_append, List.mem_singleton]
      tauto

theorem mem_mkSet (l : List String) (s : String) : s ∈ mkSet l ↔ s ∈ l := by
  unfold mkSet
  rw [mem_foldl_addUnique]
  simp

theorem getLastMem {l : List String} {x : String}
    (h : l.getLast? = some x) : x ∈ l := by
  induction l with
  | nil => simp [List.getLast?] at h
  | cons a as ih =>
    cases as with
    | nil =>
      simp [List.getLast?] at h
      simp [h]
    | cons b bs =>
      rw [List.getLast?_cons_cons] at h
      exact List.mem_cons_of_mem a (ih h)

theorem lineageStarts_mem {xs ys : List String}
    (h : lineageStarts xs ys = true) : ∀ a ∈ xs, a ∈ ys := by
  induction xs generalizing ys with
  | nil => intro a ha; cases ha
  | cons x xs ih =>
    cases ys with
    | nil => simp [lineageStarts] at h
    | cons y ys =>
      simp only [lineageStarts, Bool.and_eq_true, beq_iff_eq] at h
      intro a ha
      rcases List.mem_cons.mp ha with h1 | h1
      · exact List.mem_cons.mpr (Or.inl (h1.trans h.1))
      · exact List.mem_cons.mpr (Or.inr (ih h.2 a h1))

end BasicLemmas

/-- The active registry map: label to stored class reference, the class
reference represented by its declared name (`none` both for an absent
entry and for a `null` stored reference, distinguished by `regGetEntry`).
A JS `Map` keyed by strings is an association list with unique keys. -/
abbrev Registry := List (String × Option String)

/-- Models `Map.get`: `some stored` when the label is present (where
`stored` is the remembered class name, `none` when the constructor was
stored as `null`), `none` when the label is absent. -/
def regGetEntry : Registry → String → Option (Option String)
  | [], _ => none
  | (k, v) :: rest, l => if k = l then some v else regGetEntry rest l

/-- Models `Map.has`. -/
def hasLabel (r : Registry) (l : String) : Bool := (regGetEntry r l).isSome

/-- Renders `x ?? 'unknown'` for a possibly-missing class name. -/
def unknownName (n : Option String) : String := n.getD ("unknown")

/-- The non-dev duplicate-label error of `SigilRegistry.register`. -/
def dupGenericMsg (label : String) : String :=
  "[Sigil Error] Duplicate label " ++ sqc ++ label ++ sqc ++
    " detected. Labels must be unique."

/-- The dev-mode different-classes duplicate-label error of
`SigilRegistry.register`. -/
def dupNamedMsg (label : String) (ex incoming : Option String) : String :=
  "[Sigil Error] Duplicate label " ++ sqc ++ label ++ sqc ++
    " (different classes: " ++ unknownName ex ++ " vs " ++
    unknownName incoming ++ ")."

/-- The already-decorated error thrown by `decorateCtor` (the source
interpolates the constructor itself; its display is its declaration,
identified here by the class name). -/
def alreadyDecoratedMsg (ctorName : String) : String :=
  "Constructor " ++ ctorName ++ " is already decorated. if you are using " ++
    sqc ++ "withSigilTyped()" ++ sqc ++ " & " ++ sqc ++ "@WithSigil()" ++
    sqc ++ " at the same time remove one of them."

/-- The ancestor-label-collision error thrown by `checkInheritance`. -/
def collisionMsg (cname label ancName : String) : String :=
  "[Sigil Error] Class \"" ++ cname ++ "\" re-uses Sigil label \"" ++ label ++
    "\" from ancestor \"" ++ ancName ++
    "\". Each Sigil subclass must use a unique label. Did you forget to use \"WithSigil(newLabel)\" on the subclass?"

/-- The already-sigilified error thrown by `Sigilify`. -/
def alreadySigilifiedMsg (label : Option String) : String :=
  "[Sigil Error] " ++ sqc ++ "Sigilify(" ++ label.getD ("undefined") ++ ")" ++
    sqc ++ " already siglified."

/-- The invalid-label error thrown by `verifyLabel`. -/
def invalidLabelMsg (label : String) : String :=
  "[Sigil] Invalid identity label \"" ++ label ++
    "\". Make sure that supplied label matches validation regex or function."

/-- The duplicate-handling core of `SigilRegistry.register`, operating on
the instance's map once the `OPTIONS.registry` guard has passed.  `dev`
and `store` are the resolved `devMarker` / `storeConstructor` (per-call
override falling back to the global option).  On a present label the
source compares `existing?.name === Class?.name` — the declared name of
the stored reference against the incoming one, both `undefined` when
absent — warning and returning (a skip) in dev mode for a match, and
throwing otherwise; on an absent label it stores the class reference or
`null` depending on `storeConstructor`. -/
def registerOn (dev store : Bool) (r : Registry) (label : String)
    (klass : Option String) : Except String Registry :=
  match regGetEntry r label with
  | some existing =>
    if dev then
      if existing == klass then Except.ok r
      else Except.error (dupNamedMsg label existing klass)
    else Except.error (dupGenericMsg label)
  | none => Except.ok (r ++ [(label, if store then klass else none)])

/-- The process-wide `OPTIONS` object of `src/core/options.ts`.  The
label-validation rule is a predicate (`null`, regex and function rules
all reduce to a boolean test); `registry` is the active `SigilRegistry`'s
map, `none` when the registry is configured as absent. -/
structure SigilOptions where
  labelValidation : Option (String → Bool)
  skipLabelInheritanceCheck : Bool
  autofillLabels : Bool
  devMarker : Bool
  registry : Option Registry
  useGlobalRegistry : Bool
  storeConstructor : Bool

/-- The map behind the deprecated live `REGISTRY` binding: the active
registry when one is configured, otherwise a fresh empty `SigilRegistry`
(installed by `applyAfterSideEffects`). -/
def activeReg (opts : SigilOptions) : Registry := opts.registry.getD []

/-- Models `REGISTRY.register(label, Class)` with no per-call overrides:
a silent no-op when `OPTIONS.registry` is absent (the method's
`if (!OPTIONS.registry) return` guard), otherwise `registerOn` applied to
the active map with the global `devMarker` / `storeConstructor`. -/
def activeRegister (opts : SigilOptions) (label : String)
    (klass : Option String) : Except String SigilOptions :=
  match opts.registry with
  | none => Except.ok opts
  | some r =>
    match registerOn opts.devMarker opts.storeConstructor r label klass with
    | Except.error m => Except.error m
    | Except.ok r' => Except.ok { opts with registry := some r' }

/-- A sequence of `register` calls, stopping at the first error. -/
def registerSeq (opts : SigilOptions) :
    List (String × Option String) → Except String SigilOptions
  | [] => Except.ok opts
  | (l, k) :: rest =>
    match activeRegister opts l k with
    | Except.error m => Except.error m
    | Except.ok opts' => registerSeq opts' rest

/-- Models `SigilRegistry.merge`: register every entry of `src` into
`target` through the same duplicate-handling rule (the surrounding
`updateOptions` only merges when the old registry is present, so the
method's own `OPTIONS.registry` guard has already passed). -/
def mergeInto (dev store : Bool) (target : Registry) :
    List (String × Option String) → Except String Registry
  | [] => Except.ok target
  | (l, k) :: rest =>
    match registerOn dev store target l k with
    | Except.error m => Except.error m
    | Except.ok t' => mergeInto dev store t' rest

/-- The registry aspect of `updateOptions`: `applyBeforeSideEffects`
merges the old registry into the incoming one when both are present and
`mergeRegistries` is set, then the `registry` field is replaced.  (The
other option fields are merged independently and do not interact with
the registry switch.) -/
def updateRegistryOpt (opts : SigilOptions) (newReg : Option Registry)
    (mergeRegistries : Bool) : Except String SigilOptions :=
  match newReg, opts.registry with
  | some nr, some old =>
    if mergeRegistries then
      match mergeInto opts.devMarker opts.storeConstructor nr old with
      | Except.error m => Except.error m
      | Except.ok merged => Except.ok { opts with registry := some merged }
    else Except.ok { opts with registry := some nr }
  | _, _ => Except.ok { opts with registry := newReg }

/-- Models the deprecated `SigilRegistry.replaceRegistry`: wrap a
non-null map in a registry and update options with it (default merge),
or disable the registry with `null`. -/
def replaceRegistry (opts : SigilOptions) (newMap : Option Registry) :
    Except String SigilOptions :=
  match newMap with
  | some m => updateRegistryOpt opts (some m) true
  | none => updateRegistryOpt opts none true

/-- Models `listLabels()` on the `REGISTRY` binding. -/
def listLabelsR (opts : SigilOptions) : List String :=
  (activeReg opts).map Prod.fst

/-- Models `has(label)` on the `REGISTRY` binding. -/
def hasR (opts : SigilOptions) (l : String) : Bool :=
  hasLabel (activeReg opts) l

/-- Models `get(label)` on the `REGISTRY` binding: `?? null` turns both
an absent label and a `null`-stored reference into `null`. -/
def getR (opts : SigilOptions) (l : String) : Option String :=
  (regGetEntry (activeReg opts) l).getD none

/-- Models the `size` getter on the `REGISTRY` binding. -/
def sizeR (opts : SigilOptions) : Nat := (activeReg opts).length

/-- Result of a `decorateCtor` call: error message when it threw, plus
the options state and the constructor as they stand when the call ends
(at the throw site for errors). -/
structure DecOut where
  err : Option String
  opts : SigilOptions
  ctor : Ctor

/-- Models `decorateCtor(ctor, label)` from `src/core/options.ts`
(helpers): throw when the constructor is already explicitly decorated
(own `__DECORATED__`); otherwise resolve the symbol, register the label
(which can throw a duplicate-label error, leaving the class untouched),
then bind `{label, symbol, lineage, lineageSet}` — the lineage being the
parent's readable lineage (empty when the parent carries none) with this
symbol appended — and mark the constructor decorated. -/
def decorateCtor (opts : SigilOptions) (c : Ctor) (anc : List Ctor)
    (label : String) : DecOut :=
  if c.ownDecorated then
    DecOut.mk (some (alreadyDecoratedMsg c.name)) opts c
  else
    let symbol := symbolFor label
    match activeRegister opts label (some c.name) with
    | Except.error m => DecOut.mk (some m) opts c
    | Except.ok opts' =>
      let parentChain :=
        match lookupMeta anc with
        | some pm => pm.lineage
        | none => []
      let ctorChain := parentChain ++ [symbol]
      DecOut.mk none opts'
        { c with
            ownMeta := some (SigilMeta.mk label symbol ctorChain (mkSet ctorChain)),
            ownDecorated := true }

/-- The prefixing step of `generateRandomLabel`. -/
def autoLabel (c : String) : String := "@Sigil.auto-" ++ c

/-- Models `generateRandomLabel`: draw random candidate strings until one
is not present in `REGISTRY` (the source's retry loop tests the
unprefixed candidate with `REGISTRY.has`), then return it under the
`@Sigil.auto-` prefix.  The randomness is an explicit stream of
candidates; an exhausted stream stands for the probability-zero event of
never drawing a fresh candidate. -/
def genLabel (reg : Registry) : List String → String × List String
  | [] => (autoLabel (""), [])
  | r :: rs => if hasLabel reg r then genLabel reg rs else (autoLabel r, rs)

/-- The `labelOwner` map of `checkInheritance`: label (as read by
`ctor.SigilLabel`, possibly `undefined`) to the name of the class that
first claimed it in the walk. -/
abbrev OwnerMap := List (Option String × String)

/-- Models `labelOwner.has` / `labelOwner.get`. -/
def ownerLookup : OwnerMap → Option String → Option String
  | [], _ => none
  | (k, n) :: rest, l => if k = l then some n else ownerLookup rest l

/-- Models `labelOwner.set` (update in place or append). -/
def ownerInsert : OwnerMap → Option String → String → OwnerMap
  | [], k, n => [(k, n)]
  | (k0, n0) :: rest, k, n =>
    if k0 = k then (k0, n) :: rest else (k0, n0) :: ownerInsert rest k n

/-- Result of an inheritance-validation or facade call: error message
when it threw, plus the options state and the full prototype chain as
they stand when the call ends. -/
structure Outcome where
  err : Option String
  opts : SigilOptions
  chain : List Ctor

/-- The base-to-derived loop of `checkInheritance` over the collected
`ctors` array, realised by recursing on the prototype chain and
processing ancestors first.  A chain element enters the walk when it is
the original constructor (`isHead`) or a sigil constructor (the source
collects ancestors while `isSigilCtor` holds; own `__SIGIL__` marks
never change, so membership is stable).  For each walked class, read its
label up the (already-updated) prototype chain; on a label already
claimed, either throw the collision error (explicitly decorated class,
or autofill disabled) or re-run `decorateCtor` with a fresh random label
and claim that label instead; otherwise claim the label.  Errors
propagate like exceptions, freezing the state reached so far. -/
def inhLoop : SigilOptions → List String → Bool → List Ctor →
    Option String × SigilOptions × List Ctor × OwnerMap × List String
  | opts, rands, _, [] => (none, opts, [], [], rands)
  | opts, rands, isHead, c :: rest =>
    match inhLoop opts rands false rest with
    | (some m, opts1, rest1, owner1, rands1) =>
      (some m, opts1, c :: rest1, owner1, rands1)
    | (none, opts1, rest1, owner1, rands1) =>
      if isHead || isSigilCtorB (c :: rest1) then
        let lbl := (lookupMeta (c :: rest1)).map SigilMeta.label
        match ownerLookup owner1 lbl with
        | some ancName =>
          if c.ownDecorated || !opts1.autofillLabels then
            (some (collisionMsg c.name (lbl.getD ("undefined")) ancName),
              opts1, c :: rest1, owner1, rands1)
          else
            let g := genLabel (activeReg opts1) rands1
            let d := decorateCtor opts1 c rest1 g.1
            match d.err with
            | some m => (some m, d.opts, d.ctor :: rest1, owner1, g.2)
            | none =>
              (none, d.opts, d.ctor :: rest1,
                ownerInsert owner1 (some g.1) c.name, g.2)
        | none => (none, opts1, c :: rest1, ownerInsert owner1 lbl c.name, rands1)
      else (none, opts1, c :: rest1, owner1, rands1)

/-- Models `checkInheritance(ctor)`: no-op outside dev mode, on
non-sigil constructors, on already-checked constructors and when the
check is skipped by configuration; otherwise run the label walk and, on
success, mark the original constructor inheritance-checked. -/
def checkInheritance (opts : SigilOptions) (chain : List Ctor)
    (rands : List String) : Outcome :=
  if !opts.devMarker then Outcome.mk none opts chain
  else if !isSigilCtorB chain then Outcome.mk none opts chain
  else
    match chain with
    | [] => Outcome.mk none opts chain
    | c0 :: rest =>
      if c0.ownChecked || opts.skipLabelInheritanceCheck then
        Outcome.mk none opts (c0 :: rest)
      else
        match inhLoop opts rands true (c0 :: rest) with
        | (some m, opts1, chain1, _, _) => Outcome.mk (some m) opts1 chain1
        | (none, opts1, chain1, _, _) =>
          match chain1 with
          | [] => Outcome.mk none opts1 []
          | c :: r => Outcome.mk none opts1 ({ c with ownChecked := true } :: r)

/-- Models constructing an instance of a sigilified class: the
`Sigilified` constructor resolves the instance's constructor and runs
the dev-only `checkInheritance` on it; the created instance's resolved
constructor is the (possibly healed) chain of the outcome. -/
def instantiate (opts : SigilOptions) (chain : List Ctor)
    (rands : List String) : Outcome :=
  checkInheritance opts chain rands

/-- The instance produced by a successful construction. -/
def instanceOf (o : Outcome) : JSValue := JSValue.objVal (some o.chain)

/-- Models `verifyLabel`: no configured rule accepts everything;
otherwise the label must pass the predicate. -/
def verifyLabel (opts : SigilOptions) (label : String) : Option String :=
  match opts.labelValidation with
  | none => none
  | some f => if f label then none else some (invalidLabelMsg label)

/-- Models `Sigilify(Base, label)`: reject an already-sigilified base;
resolve the label (verify a given one, generate a random one otherwise);
extend the base with the `Sigilified` class; `decorateCtor` it; on
success mark it `__SIGIL__` and `__SIGIL_BASE__`. -/
def sigilify (opts : SigilOptions) (base : List Ctor)
    (label : Option String) (rands : List String) : Outcome :=
  if isSigilCtorB base then
    Outcome.mk (some (alreadySigilifiedMsg label)) opts base
  else
    let resolved : Except String String :=
      match label with
      | some l =>
        match verifyLabel opts l with
        | some m => Except.error m
        | none => Except.ok l
      | none => Except.ok (genLabel (activeReg opts) rands).1
    match resolved with
    | Except.error m => Outcome.mk (some m) opts base
    | Except.ok l =>
      let newC : Ctor := Ctor.mk ("Sigilified") false false false false none
      let d := decorateCtor opts newC base l
      match d.err with
      | some m => Outcome.mk (some m) d.opts (d.ctor :: base)
      | none =>
        Outcome.mk none d.opts
          ({ d.ctor with ownSigil := true, ownSigilBase := true } :: base)

/-- The `OPTIONS` state right after module initialisation populates it
with `DEFAULT_OPTIONS` (empty active registry, global registry exposed,
constructor storage on, dev marker from `NODE_ENV`). -/
def defaultState (dev : Bool) : SigilOptions :=
  SigilOptions.mk none false false dev (some []) true true

/-- The anonymous `class {}` base of the built-in `Sigil` class. -/
def plainBase : Ctor := Ctor.mk ("") false false false false none

/-- The built-in `Error` constructor, base of `SigilError`. -/
def errorBase : Ctor := Ctor.mk ("Error") false false false false none

/-- Module initialisation of `src/core/classes.ts`, first step:
`Sigil = Sigilify(class {}, 'Sigil')`. -/
def initStep1 (dev : Bool) : Outcome :=
  sigilify (defaultState dev) [plainBase] (some ("Sigil")) []

/-- Module initialisation, second step:
`SigilError = Sigilify(Error, 'SigilError')`. -/
def initStep2 (dev : Bool) : Outcome :=
  sigilify (initStep1 dev).opts [errorBase] (some ("SigilError")) []

/-- Scenario class A of §8: identified root class labelled "A". -/
def metaA : SigilMeta := SigilMeta.mk ("A") ("A") [("A" : String)] [("A" : String)]

/-- Constructor of the scenario class A. -/
def ctorA : Ctor := Ctor.mk ("A") true true true false (some metaA)

/-- An instance of the scenario class A. -/
def instA : JSValue := JSValue.objVal (some [ctorA])

/-- Scenario class B of §8: identified subclass of A labelled "B". -/
def metaB : SigilMeta := SigilMeta.mk ("B") ("B") ["A", "B"] ["A", "B"]

/-- Constructor of the scenario class B (prototype chain below is A). -/
def ctorB : Ctor := Ctor.mk ("B") false false true false (some metaB)

/-- An instance of the scenario class B. -/
def instB : JSValue := JSValue.objVal (some [ctorB, ctorA])

/-- Scenario root class labelled "Y", unrelated to A. -/
def metaY : SigilMeta := SigilMeta.mk ("Y") ("Y") [("Y" : String)] [("Y" : String)]

/-- Constructor of the scenario class Y. -/
def ctorY : Ctor := Ctor.mk ("Y") true true true false (some metaY)

/-- Scenario class Z: subclass of Y decorated with the label "A" (label
reuse across unrelated branches, reachable through the registry's
warn-and-skip leniency or registry disablement), so its lineage set
contains A's symbol without A's lineage being a positional ancestor. -/
def metaZ : SigilMeta := SigilMeta.mk ("A") ("A") ["Y", "A"] ["Y", "A"]

/-- Constructor of the scenario class Z. -/
def ctorZ : Ctor := Ctor.mk ("Z") false false true false (some metaZ)

/-- An instance of the scenario class Z. -/
def instZ : JSValue := JSValue.objVal (some [ctorZ, ctorY])

/-- Claim C1: for every class identified through any entry point (they
all funnel into `decorateCtor`), the lineage bound to the class is the
lineage readable on its parent constructor (empty when the parent
carries no identity metadata) with its own symbol appended; the lineage
set contains exactly the elements of the lineage array; hence for an
identified subclass of an identified parent, the subclass lineage is the
parent lineage with the subclass symbol appended and the subclass
lineage set is a superset of the parent's. -/
theorem claim_C1_lineage (opts : SigilOptions) (c : Ctor) (anc : List Ctor)
    (label : String) (hok : (decorateCtor opts c anc label).err = none) :
    ∃ m, (decorateCtor opts c anc label).ctor.ownMeta = some m ∧
      m.label = label ∧
      m.symbol = symbolFor label ∧
      m.lineage = (match lookupMeta anc with
        | some pm => pm.lineage
        | none => ([] : List String)) ++ [symbolFor label] ∧
      (∀ s, s ∈ m.lineageSet ↔ s ∈ m.lineage) ∧
      ∀ pm, lookupMeta anc = some pm →
        m.lineage = pm.lineage ++ [m.symbol] ∧
        ((∀ s, s ∈ pm.lineageSet ↔ s ∈ pm.lineage) →
          ∀ s, s ∈ pm.lineageSet → s ∈ m.lineageSet) := by
  unfold decorateCtor at hok ⊢
  by_cases hd : c.ownDecorated
  · simp [hd] at hok
  · simp only [if_neg hd] at hok ⊢
    cases hreg : activeRegister opts label (some c.name) with
    | error m => rw [hreg] at hok; simp at hok
    | ok opts' =>
      refine ⟨_, rfl, rfl, rfl, rfl, ?_, ?_⟩
      · intro s; exact mem_mkSet _ s
      · intro pm hpm
        refine ⟨by rw [hpm], ?_⟩
        intro hwf s hs
        rw [mem_mkSet, hpm]
        exact List.mem_append.mpr (Or.inl ((hwf s).mp hs))

/-- Witness for C1: the claim applied to a fresh subclass of the
scenario class A, decorated with the label "B" in a dev-default state. -/
theorem claim_C1_lineage_witness :
    (decorateCtor (defaultState true)
        (Ctor.mk ("Sub") false false false false none) [ctorA] ("B")).err
      = none ∧
    ∃ m, (decorateCtor (defaultState true)
        (Ctor.mk ("Sub") false false false false none) [ctorA] ("B")).ctor.ownMeta
        = some m ∧
      m.label = ("B" : String) ∧
      m.symbol = symbolFor ("B") ∧
      m.lineage = (match lookupMeta [ctorA] with
        | some pm => pm.lineage
        | none => ([] : List String)) ++ [symbolFor ("B")] ∧
      (∀ s, s ∈ m.lineageSet ↔ s ∈ m.lineage) ∧
      ∀ pm, lookupMeta [ctorA] = some pm →
        m.lineage = pm.lineage ++ [m.symbol] ∧
        ((∀ s, s ∈ pm.lineageSet ↔ s ∈ pm.lineage) →
          ∀ s, s ∈ pm.lineageSet → s ∈ m.lineageSet) :=
  ⟨rfl, claim_C1_lineage (defaultState true)
    (Ctor.mk ("Sub") false false false false none) [ctorA] ("B") rfl⟩

/-- Claim C2: for an identified class with metadata `m`, `isOfType v`
returns true iff `v` is an object whose resolved constructor is a sigil
constructor carrying identity metadata whose lineage set contains the
class's symbol; in particular it returns false, without throwing, on
`null`, `undefined`, primitives and objects without a resolvable
constructor. -/
theorem claim_C2_isOfType (m : SigilMeta) :
    (∀ v, isOfType m v = true ↔
      ∃ chain om, v = JSValue.objVal (some chain) ∧
        isSigilCtorB chain = true ∧ lookupMeta chain = some om ∧
        m.symbol ∈ om.lineageSet) ∧
    isOfType m JSValue.nullV = false ∧
    isOfType m JSValue.undef = false ∧
    isOfType m JSValue.prim = false ∧
    isOfType m (JSValue.objVal none) = false := by
  refine ⟨?_, rfl, rfl, rfl, rfl⟩
  intro v
  cases v with
  | nullV => simp [isOfType, isSigilInstanceB]
  | undef => simp [isOfType, isSigilInstanceB]
  | prim => simp [isOfType, isSigilInstanceB]
  | objVal oc =>
    cases oc with
    | none => simp [isOfType, isSigilInstanceB]
    | some chain =>
      unfold isOfType isSigilInstanceB
      by_cases hs : isSigilCtorB chain
      · simp only [hs, if_true]
        cases hm : lookupMeta chain with
        | none =>
          simp only [JSValue.objVal.injEq, Option.some.injEq]
          constructor
          · intro h; cases h
          · rintro ⟨chain', om, hc, _, hlk, _⟩
            subst hc
            rw [hm] at hlk
            cases hlk
        | some om =>
          by_cases hmem : m.symbol ∈ om.lineageSet
          · simp only [if_pos hmem, true_iff]
            exact ⟨chain, om, rfl, hs, hm, hmem⟩
          · simp only [if_neg hmem]
            constructor
            · intro h; cases h
            · rintro ⟨chain', om', hc, _, hlk, hmem'⟩
              injection hc with hc
              injection hc with hc
              subst hc
              rw [hm] at hlk
              cases hlk
              exact absurd hmem' hmem
      · simp only [hs, if_false, Bool.false_eq_true, false_iff]
        rintro ⟨chain', om, hc, hsig, _, _⟩
        injection hc with hc
        injection hc with hc
        subst hc
        exact absurd hsig hs

/-- Claim C3: `isOfTypeStrict` implies `isOfType` (for an identified
class, whose symbol is the last entry of its own lineage, against values
whose reachable metadata has a lineage set holding exactly its lineage
elements, as attachment guarantees), but not conversely; in particular
for identified class A with identified subclass B of distinct label,
`A.isOfTypeStrict(new B())` is true while `B.isOntTypeStrict(new A())`
is false, and the instance of Z (lineage set containing A's symbol off
A's positional ancestry) has `isOfType` true but `isOfTypeStrict` false
against A. -/
theorem claim_C3_strict_implies :
    (∀ (m : SigilMeta) (v : JSValue),
      m.lineage.getLast? = some m.symbol →
      (∀ chain om, v = JSValue.objVal (some chain) →
        lookupMeta chain = some om →
        ∀ s, s ∈ om.lineageSet ↔ s ∈ om.lineage) →
      isOfTypeStrict m v = true → isOfType m v = true) ∧
    isOfTypeStrict metaA instB = true ∧
    isOfType metaA instB = true ∧
    isOfTypeStrict metaB instA = false ∧
    (isOfType metaA instZ = true ∧ isOfTypeStrict metaA instZ = false) := by
  refine ⟨?_, by decide, by decide, by decide, by decide, by decide⟩
  intro m v hlast hwf hstrict
  cases v with
  | nullV => exact absurd hstrict (by simp [isOfTypeStrict, isSigilInstanceB])
  | undef => exact absurd hstrict (by simp [isOfTypeStrict, isSigilInstanceB])
  | prim => exact absurd hstrict (by simp [isOfTypeStrict, isSigilInstanceB])
  | objVal oc =>
    cases oc with
    | none => exact absurd hstrict (by simp [isOfTypeStrict, isSigilInstanceB])
    | some chain =>
      unfold isOfTypeStrict isSigilInstanceB at hstrict
      unfold isOfType isSigilInstanceB
      by_cases hs : isSigilCtorB chain
      · simp only [hs, if_true] at hstrict ⊢
        cases hm : lookupMeta chain with
        | none => rw [hm] at hstrict; cases hstrict
        | some om =>
          rw [hm] at hstrict
          have hmem : m.symbol ∈ om.lineage :=
            lineageStarts_mem hstrict m.symbol (getLastMem hlast)
          have hset : m.symbol ∈ om.lineageSet :=
            (hwf chain om rfl hm m.symbol).mpr hmem
          simp [hset]
      · rw [if_neg hs] at hstrict; cases hstrict

/-- Witness for C3: the strict-implies-loose direction applied to the
concrete pair (class A, instance of B), hypotheses discharged there. -/
theorem claim_C3_strict_implies_witness : isOfType metaA instB = true :=
  claim_C3_strict_implies.1 metaA instB (by decide)
    (by
      intro chain om h1 h2
      simp only [instB] at h1
      injection h1 with h1
      injection h1 with h1
      subst h1
      have h3 : some metaB = some om :=
        (rfl : lookupMeta [ctorB, ctorA] = some metaB).symm.trans h2
      injection h3 with h3
      subst h3
      intro s
      exact Iff.rfl)
    (by decide)

theorem listStarts_self_append (p q : List Char) :
    listStarts p (p ++ q) = true := by
  induction p with
  | nil => rfl
  | cons a as ih => simp [listStarts, ih]

theorem listHasSub_of_starts (p s : List Char)
    (h : listStarts p s = true) : listHasSub p s = true := by
  cases s with
  | nil => exact h
  | cons b rest => simp [listHasSub, h]

theorem listHasSub_append_left (p : List Char) (a : List Char)
    (rest : List Char) (h : listHasSub p rest = true) :
    listHasSub p (a ++ rest) = true := by
  induction a with
  | nil => exact h
  | cons x xs ih => simp [listHasSub, ih]

theorem strContains_here (x r : String) :
    strContainsSub x (x ++ r) = true := by
  unfold strContainsSub
  have hd : (x ++ r).toList = x.toList ++ r.toList := rfl
  rw [hd]
  exact listHasSub_of_starts _ _ (listStarts_self_append x.toList r.toList)

theorem strContains_right (x a r : String)
    (h : strContainsSub x r = true) : strContainsSub x (a ++ r) = true := by
  unfold strContainsSub at h ⊢
  have hd : (a ++ r).toList = a.toList ++ r.toList := rfl
  rw [hd]
  exact listHasSub_append_left _ _ _ h

theorem listStarts_refl (p : List Char) : listStarts p p = true := by
  induction p with
  | nil => rfl
  | cons a as ih => simp [listStarts, ih]

theorem listStarts_extend (p : List Char) :
    ∀ s t, listStarts p s = true → listStarts p (s ++ t) = true := by
  induction p with
  | nil => intro s t _; rfl
  | cons a as ih =>
    intro s t h
    cases s with
    | nil => cases h
    | cons b bs =>
      simp only [listStarts, Bool.and_eq_true] at h
      simp [listStarts, h.1, ih bs t h.2]

theorem listHasSub_nil (t : List Char) : listHasSub [] t = true := by
  cases t with
  | nil => rfl
  | cons b rest => simp [listHasSub, listStarts]

theorem listHasSub_extend (p : List Char) :
    ∀ a t, listHasSub p a = true → listHasSub p (a ++ t) = true := by
  intro a
  induction a with
  | nil =>
    intro t h
    cases p with
    | nil => exact listHasSub_nil t
    | cons x xs => cases h
  | cons x xs ih =>
    intro t h
    simp only [listHasSub, Bool.or_eq_true] at h
    rw [List.cons_append]
    simp only [listHasSub, Bool.or_eq_true]
    rcases h with h | h
    · left
      have hx := listStarts_extend p (x :: xs) t h
      rwa [List.cons_append] at hx
    · right
      exact ih t h

theorem strContains_self (x : String) : strContainsSub x x = true :=
  listHasSub_of_starts _ _ (listStarts_refl x.toList)

theorem strContains_extend (x a t : String)
    (h : strContainsSub x a = true) : strContainsSub x (a ++ t) = true := by
  unfold strContainsSub at h ⊢
  have hd : (a ++ t).toList = a.toList ++ t.toList := rfl
  rw [hd]
  exact listHasSub_extend _ _ _ h

/-- Claim C5: when an attach fails with a duplicate-label error from the
registry, the class is left without any identity metadata (no label,
symbol, lineage or lineage set bound, not marked decorated) and the
state is exactly as before: registration runs before metadata binding,
so the throw leaves no partially-identified class observable. -/
theorem claim_C5_failed_attach (opts : SigilOptions) (c : Ctor)
    (anc : List Ctor) (label : String) (m : String)
    (hd : c.ownDecorated = false)
    (hm : c.ownMeta = none)
    (hreg : activeRegister opts label (some c.name) = Except.error m) :
    decorateCtor opts c anc label = DecOut.mk (some m) opts c ∧
    (decorateCtor opts c anc label).ctor.ownMeta = none ∧
    (decorateCtor opts c anc label).ctor.ownDecorated = false ∧
    (decorateCtor opts c anc label).opts = opts := by
  have heq : decorateCtor opts c anc label = DecOut.mk (some m) opts c := by
    unfold decorateCtor
    rw [if_neg (by simp [hd]), hreg]
  exact ⟨heq, by rw [heq]; exact hm, by rw [heq]; exact hd, by rw [heq]⟩

/-- Witness for C5: a fresh class named "B" attached under the label
"X" already owned by a differently-named class, outside dev mode. -/
theorem claim_C5_failed_attach_witness :
    decorateCtor
        (SigilOptions.mk none false false false
          (some [(("X" : String), some ("A"))]) true true)
        (Ctor.mk ("B") false false false false none) [] ("X")
      = DecOut.mk (some (dupGenericMsg ("X")))
          (SigilOptions.mk none false false false
            (some [(("X" : String), some ("A"))]) true true)
          (Ctor.mk ("B") false false false false none) :=
  (claim_C5_failed_attach
    (SigilOptions.mk none false false false
      (some [(("X" : String), some ("A"))]) true true)
    (Ctor.mk ("B") false false false false none) [] ("X")
    (dupGenericMsg ("X")) rfl rfl rfl).1

/-- Claim C6 (amended): on a label already present, `register` warns and
leaves the registry unchanged when dev mode is active and the stored
entry's class name matches the incoming one; in every other case it
fails with a duplicate-label error — but the error message identifies
both class names only in the dev-mode different-name case, while the
non-dev error names only the label. -/
theorem claim_C6_register_duplicate (dev store : Bool) (r : Registry)
    (label : String) (existing klass : Option String)
    (hex : regGetEntry r label = some existing) :
    (dev = true → existing = klass →
      registerOn dev store r label klass = Except.ok r) ∧
    (dev = true → existing ≠ klass →
      registerOn dev store r label klass
          = Except.error (dupNamedMsg label existing klass) ∧
      strContainsSub (unknownName existing)
          (dupNamedMsg label existing klass) = true ∧
      strContainsSub (unknownName klass)
          (dupNamedMsg label existing klass) = true) ∧
    (dev = false →
      registerOn dev store r label klass
          = Except.error (dupGenericMsg label)) := by
  refine ⟨?_, ?_, ?_⟩
  · intro hdev hsame
    unfold registerOn
    rw [hex, hdev]
    simp [hsame]
  · intro hdev hne
    unfold registerOn
    rw [hex, hdev]
    have hbeq : (existing == klass) = false := by
      simp [hne]
    refine ⟨by simp [hbeq], ?_, ?_⟩
    · unfold dupNamedMsg
      exact strContains_extend _ _ _ (strContains_extend _ _ _
        (strContains_extend _ _ _
          (strContains_right _ _ _ (strContains_self _))))
    · unfold dupNamedMsg
      exact strContains_extend _ _ _
        (strContains_right _ _ _ (strContains_self _))
  · intro hdev
    unfold registerOn
    rw [hex, hdev]
    simp

/-- Counterexample for C6 as stated: with dev mode off and classes named
"Foo" and "Bar" colliding on the label "X", the duplicate-label error is
raised but its message identifies neither class name. -/
theorem claim_C6_counterexample :
    registerOn false true [(("X" : String), some ("Foo"))] ("X") (some ("Bar"))
        = Except.error (dupGenericMsg ("X")) ∧
    strContainsSub ("Foo") (dupGenericMsg ("X")) = false ∧
    strContainsSub ("Bar") (dupGenericMsg ("X")) = false :=
  ⟨rfl, by decide, by decide⟩

/-- Witness for C6 (amended): the dev-mode different-name branch at a
concrete registry, producing the error that names both classes. -/
theorem claim_C6_register_duplicate_witness :
    registerOn true true [(("X" : String), some ("Foo"))] ("X") (some ("Bar"))
        = Except.error (dupNamedMsg ("X") (some ("Foo")) (some ("Bar"))) ∧
    strContainsSub ("Foo")
        (dupNamedMsg ("X") (some ("Foo")) (some ("Bar"))) = true ∧
    strContainsSub ("Bar")
        (dupNamedMsg ("X") (some ("Foo")) (some ("Bar"))) = true :=
  (claim_C6_register_duplicate true true [(("X" : String), some ("Foo"))]
    ("X") (some ("Foo")) (some ("Bar")) rfl).2.1 rfl (by decide)

/-- Claim C7: re-identifying a class that was already successfully
identified is blocked by the attach precondition before the registry is
consulted, for any label and any configuration (in particular for both
values of the lenient dev marker): the call throws the
already-decorated error and leaves the options state, the registry and
the class exactly unchanged. -/
theorem claim_C7_reidentify_blocked (opts : SigilOptions) (c : Ctor)
    (anc : List Ctor) (label : String) (hd : c.ownDecorated = true) :
    decorateCtor opts c anc label
      = DecOut.mk (some (alreadyDecoratedMsg c.name)) opts c := by
  unfold decorateCtor
  rw [if_pos hd]

/-- Witness for C7: the built-in scenario class A re-identified under a
fresh label in lenient dev mode. -/
theorem claim_C7_reidentify_blocked_witness :
    decorateCtor (defaultState true) ctorA [] ("A2")
      = DecOut.mk (some (alreadyDecoratedMsg ctorA.name)) (defaultState true)
          ctorA :=
  claim_C7_reidentify_blocked (defaultState true) ctorA [] ("A2") rfl

/-- Claim C8: after the registry option is set to `null`, the reads
`has`, `get`, `listLabels` (and `size`) on the live `REGISTRY` binding —
a fresh empty registry installed by the update's side effects — report
false/empty/zero rather than erroring, and any number of subsequent
`register` calls succeed without a duplicate-label error (the
`OPTIONS.registry` guard makes each one a silent no-op), however many
share the same label. -/
theorem claim_C8_registry_disabled (opts : SigilOptions) :
    updateRegistryOpt opts none true
        = Except.ok { opts with registry := none } ∧
    replaceRegistry opts none = Except.ok { opts with registry := none } ∧
    listLabelsR { opts with registry := none } = [] ∧
    (∀ l, hasR { opts with registry := none } l = false) ∧
    (∀ l, getR { opts with registry := none } l = none) ∧
    sizeR { opts with registry := none } = 0 ∧
    ∀ ps, registerSeq { opts with registry := none } ps
        = Except.ok { opts with registry := none } := by
  have hupd : updateRegistryOpt opts none true
      = Except.ok { opts with registry := none } := by
    unfold updateRegistryOpt
    cases opts.registry <;> rfl
  refine ⟨hupd, hupd, rfl, fun l => rfl, fun l => rfl, rfl, ?_⟩
  intro ps
  induction ps with
  | nil => rfl
  | cons p rest ih => exact ih

theorem regGetEntry_append (r1 r2 : Registry) (l : String) :
    regGetEntry (r1 ++ r2) l =
      match regGetEntry r1 l with
      | some v => some v
      | none => regGetEntry r2 l := by
  induction r1 with
  | nil => rfl
  | cons p rest ih =>
    obtain ⟨k, v⟩ := p
    by_cases hk : k = l
    · simp [regGetEntry, hk]
    · simp [regGetEntry, hk, ih]

theorem regGetEntry_mem (r : Registry) (l : String) (v : Option String)
    (h : regGetEntry r l = some v) : (l, v) ∈ r := by
  induction r with
  | nil => cases h
  | cons p rest ih =>
    obtain ⟨k, w⟩ := p
    unfold regGetEntry at h
    by_cases hk : k = l
    · rw [if_pos hk] at h
      injection h with h
      subst hk; subst h
      exact List.mem_cons_self _ _
    · rw [if_neg hk] at h
      exact List.mem_cons_of_mem _ (ih h)

theorem registerOn_ok (dev store : Bool) (r : Registry) (l : String)
    (k : Option String) (out : Registry)
    (h : registerOn dev store r l k = Except.ok out) :
    hasLabel out l = true ∧
    ∀ l2, hasLabel r l2 = true → hasLabel out l2 = true := by
  unfold registerOn at h
  cases hg : regGetEntry r l with
  | some existing =>
    rw [hg] at h
    cases dev with
    | false => cases h
    | true =>
      simp only [eq_self_iff_true, if_true] at h
      cases hbe : existing == k with
      | true =>
        rw [hbe] at h
        simp only [eq_self_iff_true, if_true] at h
        injection h with h
        subst h
        exact ⟨by unfold hasLabel; rw [hg]; rfl, fun l2 hl2 => hl2⟩
      | false =>
        rw [hbe] at h
        simp only [Bool.false_eq_true, if_false] at h
        cases h
  | none =>
    rw [hg] at h
    injection h with h
    subst h
    constructor
    · unfold hasLabel
      rw [regGetEntry_append, hg]
      simp [regGetEntry]
    · intro l2 hl2
      unfold hasLabel at hl2 ⊢
      rw [regGetEntry_append]
      cases hge : regGetEntry r l2 with
      | some v => rfl
      | none => rw [hge] at hl2; cases hl2

theorem mergeInto_ok (dev store : Bool) :
    ∀ (src : List (String × Option String)) (target out : Registry),
      mergeInto dev store target src = Except.ok out →
      (∀ l, hasLabel target l = true → hasLabel out l = true) ∧
      (∀ l k, (l, k) ∈ src → hasLabel out l = true) := by
  intro src
  induction src with
  | nil =>
    intro target out h
    unfold mergeInto at h
    injection h with h
    subst h
    exact ⟨fun l hl => hl, fun l k hk => absurd hk (List.not_mem_nil _)⟩
  | cons p rest ih =>
    intro target out h
    obtain ⟨l0, k0⟩ := p
    unfold mergeInto at h
    cases hrr : registerOn dev store target l0 k0 with
    | error m => rw [hrr] at h; cases h
    | ok t1 =>
      rw [hrr] at h
      have hreg := registerOn_ok dev store target l0 k0 t1 hrr
      have step := ih t1 out h
      constructor
      · intro l hl
        exact step.1 l (hreg.2 l hl)
      · intro l k hk
        rcases List.mem_cons.mp hk with he | he
        · have hll : l = l0 := by cases he; rfl
          subst hll
          exact step.1 l hreg.1
        · exact step.2 l k he

/-- Claim C9: replacing a non-absent active registry by a new non-absent
one (via the options update, and equally via `replaceRegistry`) merges
every entry of the old registry into the new one before the switch, so
every label registered before the replacement is still present in the
active registry afterwards. -/
theorem claim_C9_merge_before_switch (opts : SigilOptions)
    (oldR newR : Registry) (opts' : SigilOptions)
    (hold : opts.registry = some oldR)
    (hres : updateRegistryOpt opts (some newR) true = Except.ok opts') :
    replaceRegistry opts (some newR) = Except.ok opts' ∧
    (∃ merged, opts'.registry = some merged ∧
      mergeInto opts.devMarker opts.storeConstructor newR oldR
        = Except.ok merged) ∧
    ∀ l, hasLabel oldR l = true → hasR opts' l = true := by
  unfold updateRegistryOpt at hres
  rw [hold] at hres
  simp only [eq_self_iff_true, if_true] at hres
  cases hm : mergeInto opts.devMarker opts.storeConstructor newR oldR with
  | error m => rw [hm] at hres; cases hres
  | ok merged =>
    rw [hm] at hres
    injection hres with hres
    subst hres
    refine ⟨?_, ⟨merged, rfl, rfl⟩, ?_⟩
    · unfold replaceRegistry updateRegistryOpt
      rw [hold]
      simp only [eq_self_iff_true, if_true]
      rw [hm]
    · intro l hl
      unfold hasLabel at hl
      cases hge : regGetEntry oldR l with
      | none => rw [hge] at hl; cases hl
      | some v =>
        have hmem : (l, v) ∈ oldR := regGetEntry_mem oldR l v hge
        have hout : hasLabel merged l = true :=
          (mergeInto_ok opts.devMarker opts.storeConstructor oldR newR
            merged hm).2 l v hmem
        unfold hasR activeReg
        simpa using hout

/-- Witness for C9: an old registry holding the label "A" merged into an
empty replacement; the label survives the switch. -/
theorem claim_C9_merge_before_switch_witness :
    hasR
      (SigilOptions.mk none false false true
        (some [(("A" : String), some ("X"))]) true true) ("A") = true :=
  (claim_C9_merge_before_switch
    (SigilOptions.mk none false false true
      (some [(("A" : String), some ("X"))]) true true)
    [(("A" : String), some ("X"))] []
    (SigilOptions.mk none false false true
      (some [(("A" : String), some ("X"))]) true true)
    rfl rfl).2.2 ("A") rfl

theorem registerOn_dup (dev2 store2 : Bool) (r : Registry) (l : String)
    (ex klass : Option String) (hg : regGetEntry r l = some ex) :
    registerOn dev2 store2 r l klass = Except.ok r ∨
    ∃ msg, registerOn dev2 store2 r l klass = Except.error msg := by
  unfold registerOn
  rw [hg]
  cases dev2 with
  | false => exact Or.inr ⟨dupGenericMsg l, rfl⟩
  | true =>
    cases hbe : ex == klass with
    | true =>
      left
      simp [hbe]
    | false =>
      right
      refine ⟨dupNamedMsg l ex klass, ?_⟩
      simp [hbe]

/-- Claim C10: module initialisation identifies the two built-in classes
— the root class labelled "Sigil" and the `Error`-derived class labelled
"SigilError" — without error, for either dev-marker value, registering
both labels in the default active registry; afterwards any `register`
call for either label takes the duplicate path: it either warns and
skips (registry unchanged) or raises an error, never inserting. -/
theorem claim_C10_builtin_classes (dev : Bool) :
    (initStep1 dev).err = none ∧
    (initStep2 dev).err = none ∧
    (∃ m, lookupMeta (initStep1 dev).chain = some m ∧
      m.label = ("Sigil" : String) ∧ m.lineage = [("Sigil" : String)]) ∧
    (∃ m, lookupMeta (initStep2 dev).chain = some m ∧
      m.label = ("SigilError" : String) ∧
      m.lineage = [("SigilError" : String)]) ∧
    (initStep2 dev).chain.getLast? = some errorBase ∧
    hasR (initStep1 dev).opts ("Sigil") = true ∧
    hasR (initStep2 dev).opts ("Sigil") = true ∧
    hasR (initStep2 dev).opts ("SigilError") = true ∧
    (∀ (dev2 store2 : Bool) (klass : Option String),
      registerOn dev2 store2 (activeReg (initStep2 dev).opts) ("Sigil") klass
          = Except.ok (activeReg (initStep2 dev).opts) ∨
      ∃ msg, registerOn dev2 store2 (activeReg (initStep2 dev).opts)
          ("Sigil") klass = Except.error msg) ∧
    (∀ (dev2 store2 : Bool) (klass : Option String),
      registerOn dev2 store2 (activeReg (initStep2 dev).opts)
          ("SigilError") klass
          = Except.ok (activeReg (initStep2 dev).opts) ∨
      ∃ msg, registerOn dev2 store2 (activeReg (initStep2 dev).opts)
          ("SigilError") klass = Except.error msg) := by
  cases dev <;>
    exact ⟨rfl, rfl,
      ⟨SigilMeta.mk ("Sigil") ("Sigil") [("Sigil" : String)]
        [("Sigil" : String)], by decide, rfl, rfl⟩,
      ⟨SigilMeta.mk ("SigilError") ("SigilError") [("SigilError" : String)]
        [("SigilError" : String)], by decide, rfl, rfl⟩,
      by decide, by decide, by decide, by decide,
      fun dev2 store2 klass =>
        registerOn_dup dev2 store2 _ ("Sigil") (some ("Sigilified")) klass
          (by decide),
      fun dev2 store2 klass =>
        registerOn_dup dev2 store2 _ ("SigilError") (some ("Sigilified"))
          klass (by decide)⟩

/-- A dev-mode options state with the ancestor check enabled, an active
registry and a chosen autofill setting. -/
def anyOpts (af : Bool) (reg : Registry) (useG store : Bool) : SigilOptions :=
  SigilOptions.mk none false af true (some reg) useG store

/-- A subclass that extends an identified class without requesting a
fresh identity: no own marker properties, no own metadata. -/
def freshSubclass (cname : String) : Ctor :=
  Ctor.mk cname false false false false none

/-- An identified parent class (as produced by the facade: sigil-marked,
decorated, metadata bound). -/
def identifiedParent (pname : String) (pm : SigilMeta) : Ctor :=
  Ctor.mk pname true true true false (some pm)

/-- A subclass that was explicitly identified (own `__DECORATED__` and
own metadata). -/
def decoratedSubclass (cname : String) (cm : SigilMeta) : Ctor :=
  Ctor.mk cname false false true false (some cm)

/-- The subclass after the auto-heal: re-decorated with the generated
label, lineage recomputed from the parent, marked checked. -/
def healedChild (cname rand : String) (pm : SigilMeta) : Ctor :=
  Ctor.mk cname false false true true
    (some (SigilMeta.mk (autoLabel rand) (autoLabel rand)
      (pm.lineage ++ [autoLabel rand])
      (mkSet (pm.lineage ++ [autoLabel rand]))))

/-- Claim C4: with autofill enabled, a subclass of an identified class
that was not explicitly identified gets, on its first instantiation, a
freshly generated label different from its parent's (the generated
candidate being fresh for the registry while the parent's label is
registered), is re-decorated with it and marked checked, and the
parent's `isOfType` still accepts the new instance; if instead the
colliding class was explicitly identified, or autofill is disabled, the
construction throws the collision error naming both classes. -/
theorem claim_C4_collision_heal :
    (∀ (pname cname rand : String) (pm : SigilMeta) (reg : Registry)
      (useG store : Bool),
      hasLabel reg pm.label = true →
      hasLabel reg rand = false →
      hasLabel reg (autoLabel rand) = false →
      pm.lineage.getLast? = some pm.symbol →
      instantiate (anyOpts true reg useG store)
          [freshSubclass cname, identifiedParent pname pm] [rand]
        = Outcome.mk none
            (anyOpts true
              (reg ++ [(autoLabel rand, if store then some cname else none)])
              useG store)
            [healedChild cname rand pm, identifiedParent pname pm] ∧
      autoLabel rand ≠ pm.label ∧
      isOfType pm (instanceOf (instantiate (anyOpts true reg useG store)
          [freshSubclass cname, identifiedParent pname pm] [rand])) = true) ∧
    (∀ (pname cname : String) (pm cm : SigilMeta) (reg : Registry)
      (af useG store : Bool),
      cm.label = pm.label →
      instantiate (anyOpts af reg useG store)
          [decoratedSubclass cname cm, identifiedParent pname pm] []
        = Outcome.mk (some (collisionMsg cname pm.label pname))
            (anyOpts af reg useG store)
            [decoratedSubclass cname cm, identifiedParent pname pm]) ∧
    (∀ (pname cname : String) (pm : SigilMeta) (reg : Registry)
      (useG store : Bool),
      instantiate (anyOpts false reg useG store)
          [freshSubclass cname, identifiedParent pname pm] []
        = Outcome.mk (some (collisionMsg cname pm.label pname))
            (anyOpts false reg useG store)
            [freshSubclass cname, identifiedParent pname pm]) := by
  refine ⟨?_, ?_, ?_⟩
  · intro pname cname rand pm reg useG store h1 h2 h3 h4
    have hge : regGetEntry reg (autoLabel rand) = none := by
      cases hge0 : regGetEntry reg (autoLabel rand) with
      | none => rfl
      | some v =>
        exfalso
        unfold hasLabel at h3
        rw [hge0] at h3
        cases h3
    have heq : instantiate (anyOpts true reg useG store)
          [freshSubclass cname, identifiedParent pname pm] [rand]
        = Outcome.mk none
            (anyOpts true
              (reg ++ [(autoLabel rand, if store then some cname else none)])
              useG store)
            [healedChild cname rand pm, identifiedParent pname pm] := by
      simp only [instantiate, checkInheritance, inhLoop, lookupMeta,
        isSigilCtorB, ownerLookup, ownerInsert, activeReg, anyOpts,
        freshSubclass, identifiedParent, healedChild, decorateCtor,
        activeRegister, registerOn, genLabel, symbolFor,
        Option.map_some', Option.getD_some, eq_self_iff_true, if_true,
        if_false, Bool.true_or, Bool.false_or, Bool.or_false, Bool.or_true,
        Bool.not_true, Bool.not_false, Bool.false_eq_true, Bool.or_self,
        h2, hge]
    refine ⟨heq, ?_, ?_⟩
    · intro he
      rw [← he] at h1
      rw [h3] at h1
      cases h1
    · rw [heq]
      have hmem : pm.symbol ∈ mkSet (pm.lineage ++ [autoLabel rand]) :=
        (mem_mkSet _ _).mpr (List.mem_append.mpr (Or.inl (getLastMem h4)))
      simp only [instanceOf, isOfType, isSigilInstanceB, isSigilCtorB,
        lookupMeta, healedChild, identifiedParent, Bool.false_or,
        Bool.true_or, Bool.or_false, Bool.or_true, eq_self_iff_true,
        if_true]
      rw [if_pos hmem]
  · intro pname cname pm cm reg af useG store hcl
    have heq : instantiate (anyOpts af reg useG store)
          [decoratedSubclass cname cm, identifiedParent pname pm] []
        = Outcome.mk (some (collisionMsg cname cm.label pname))
            (anyOpts af reg useG store)
            [decoratedSubclass cname cm, identifiedParent pname pm] := by
      simp only [instantiate, checkInheritance, inhLoop, lookupMeta,
        isSigilCtorB, ownerLookup, ownerInsert, activeReg, anyOpts,
        decoratedSubclass, identifiedParent, Option.map_some',
        Option.getD_some, eq_self_iff_true, if_true, if_false,
        Bool.true_or, Bool.false_or, Bool.or_false, Bool.or_true,
        Bool.not_true, Bool.not_false, Bool.false_eq_true, Bool.or_self,
        hcl]
    rw [heq, hcl]
  · intro pname cname pm reg useG store
    simp only [instantiate, checkInheritance, inhLoop, lookupMeta,
      isSigilCtorB, ownerLookup, ownerInsert, activeReg, anyOpts,
      freshSubclass, identifiedParent, Option.map_some', Option.getD_some,
      eq_self_iff_true, if_true, if_false, Bool.true_or, Bool.false_or,
      Bool.or_false, Bool.or_true, Bool.not_true, Bool.not_false,
      Bool.false_eq_true, Bool.or_self]

/-- Concrete parent metadata for the C4 witness scenario. -/
def pmW : SigilMeta :=
  SigilMeta.mk ("@t.Parent") ("@t.Parent") [("@t.Parent" : String)]
    [("@t.Parent" : String)]

/-- Concrete registry for the C4 witness scenario: the parent's label is
registered. -/
def regW : Registry := [(("@t.Parent" : String), some ("Parent"))]

/-- Witness for C4: the auto-heal conjunct applied to a concrete parent
labelled "@t.Parent" with registered label, a fresh subclass "Child" and
the random candidate "r". -/
theorem claim_C4_collision_heal_witness :
    instantiate (anyOpts true regW true true)
        [freshSubclass ("Child"), identifiedParent ("Parent") pmW]
        [("r" : String)]
      = Outcome.mk none
          (anyOpts true
            (regW ++ [(autoLabel ("r"),
              if true then some ("Child") else none)]) true true)
          [healedChild ("Child") ("r") pmW,
            identifiedParent ("Parent") pmW] ∧
    autoLabel ("r") ≠ pmW.label ∧
    isOfType pmW (instanceOf (instantiate (anyOpts true regW true true)
        [freshSubclass ("Child"), identifiedParent ("Parent") pmW]
        [("r" : String)])) = true :=
  claim_C4_collision_heal.1 ("Parent") ("Child") ("r") pmW regW true true
    (by decide) (by decide) (by decide) (by decide)
